import Mathlib

/-!
Shallow embedding of the `KeyPoolManager` API-key rotation module
(key pool with round-robin selection, cooldowns, health tracking and
retry with rotation).  Timestamps are naturals (milliseconds); the
asynchronous operation passed to `execute` is modelled by a script of
outcomes consumed one per invocation; sleeps advance an explicit clock.
-/

namespace KeyPool

-- ============================================================
-- Data model
-- ============================================================

/-- One credential record of the pool (`KeyState` in the source). -/
structure KeyState where
  key : String
  index : Nat
  totalRequests : Nat
  successCount : Nat
  failCount : Nat
  rateLimitHits : Nat
  cooldownUntil : Nat
  lastUsedAt : Nat
  lastErrorAt : Nat
  lastError : Option String
  isHealthy : Bool
deriving DecidableEq, Repr

instance : Inhabited KeyState :=
  ⟨{ key := "", index := 0, totalRequests := 0, successCount := 0, failCount := 0,
     rateLimitHits := 0, cooldownUntil := 0, lastUsedAt := 0, lastErrorAt := 0,
     lastError := none, isHealthy := true }⟩

/-- The manager's mutable fields. -/
structure PoolState where
  keys : List KeyState
  currentIndex : Nat
  initialized : Bool
  consecutiveAllExhausted : Nat
deriving DecidableEq, Repr

-- Source constants.
def RATE_LIMIT_COOLDOWN_MS : Nat := 15 * 60 * 1000
def ERROR_COOLDOWN_MS : Nat := 2 * 60 * 1000
def MAX_CONSECUTIVE_FAILS : Nat := 5
def ALL_KEYS_EXHAUSTED_WAIT_MS : Nat := 30 * 1000
def REQUEST_DELAY_MS : Nat := 1500

/-- An error thrown by the operation: its `message` and optional numeric `code`. -/
structure ErrInfo where
  message : String
  code : Option Int
deriving DecidableEq, Repr

/-- One outcome of invoking the operation with some credential. -/
inductive Outcome where
  | ok (v : Nat)
  | err (e : ErrInfo)
deriving DecidableEq, Repr

-- ============================================================
-- String helpers (JS `toLowerCase` / `includes`)
-- ============================================================

/-- `needle` occurs as a contiguous substring of `hay` (JS `String.includes`). -/
def strContains : List Char → List Char → Bool
  | hay, needle =>
    needle.isPrefixOf hay ||
      match hay with
      | [] => false
      | _ :: t => strContains t needle

/-- JS `toLowerCase`, per character. -/
def lowerStr (s : String) : String :=
  String.mk (s.data.map Char.toLower)

-- ============================================================
-- Private helpers of the manager
-- ============================================================

/-- `isCoolingDown`: `key.cooldownUntil > Date.now()`. -/
def isCoolingDown (now : Nat) (k : KeyState) : Bool :=
  decide (now < k.cooldownUntil)

/-- The scan loop of `getNextAvailableKey`: `fuel` counts the remaining
loop iterations (`keys.length - attempt` at entry), `attempt` the current one. -/
def findEligibleAux (keys : List KeyState) (now : Nat) (tried : List Nat)
    (startIndex : Nat) : Nat → Nat → Option Nat
  | _, 0 => none
  | attempt, fuel + 1 =>
    let idx := (startIndex + attempt) % keys.length
    match keys[idx]? with
    | none => none
    | some k =>
      if tried.contains idx then findEligibleAux keys now tried startIndex (attempt + 1) fuel
      else if !k.isHealthy then findEligibleAux keys now tried startIndex (attempt + 1) fuel
      else if isCoolingDown now k then findEligibleAux keys now tried startIndex (attempt + 1) fuel
      else some idx

/-- `getNextAvailableKey`: round-robin scan from the cursor, skipping tried,
unhealthy and cooling keys; on a find, the cursor advances to `(idx + 1) % N`. -/
def getNextAvailableKey (pool : PoolState) (now : Nat) (tried : List Nat) :
    Option (Nat × PoolState) :=
  match findEligibleAux pool.keys now tried pool.currentIndex 0 pool.keys.length with
  | none => none
  | some idx => some (idx, { pool with currentIndex := (idx + 1) % pool.keys.length })

/-- `getNextCooldownEnd`: smallest `cooldownUntil` among cooling keys, minus `now`
(`Math.min(...)` over the filtered list); `0` when nothing is cooling. -/
def getNextCooldownEnd (keys : List KeyState) (now : Nat) : Nat :=
  let cooling := keys.filter (fun k => decide (now < k.cooldownUntil))
  match cooling.map (fun k => k.cooldownUntil) with
  | [] => 0
  | c :: cs => cs.foldl min c - now

/-- `isRateLimitError`. -/
def isRateLimitError (e : ErrInfo) : Bool :=
  strContains (lowerStr e.message).data "rate limit".data ||
  strContains (lowerStr e.message).data "too many requests".data ||
  e.code == some 88 ||
  e.code == some 429

/-- `maskKey` on the character list of the key. -/
def maskKeyL (key : List Char) : List Char :=
  if key.length ≤ 12 then ['*', '*', '*']
  else key.take 6 ++ ['.', '.', '.'] ++ key.drop (key.length - 6)

def maskKey (key : String) : String :=
  String.mk (maskKeyL key.data)

-- ============================================================
-- initialize
-- ============================================================

/-- JS whitespace for `trim` (the characters the source's inputs can contain). -/
def isWS (c : Char) : Bool :=
  c = ' ' || c = '\t' || c = '\n' || c = '\r'

/-- JS `String.trim` on a character list. -/
def trimL (l : List Char) : List Char :=
  ((l.dropWhile isWS).reverse.dropWhile isWS).reverse

/-- JS `split(',')` on a character list (`acc` holds the current field reversed). -/
def splitComma : List Char → List Char → List (List Char)
  | [], acc => [acc.reverse]
  | c :: rest, acc =>
    if c = ',' then acc.reverse :: splitComma rest []
    else splitComma rest (c :: acc)

/-- The key-list parsing in `initialize`: split on commas, trim, drop empties. -/
def parseKeys (apiKeys : String) : List String :=
  ((splitComma apiKeys.data []).map (fun l => String.mk (trimL l))).filter
    (fun k => 0 < k.length)

/-- A fresh record as built by `initialize`. -/
def mkKeyState (key : String) (index : Nat) : KeyState :=
  { key := key, index := index, totalRequests := 0, successCount := 0, failCount := 0,
    rateLimitHits := 0, cooldownUntil := 0, lastUsedAt := 0, lastErrorAt := 0,
    lastError := none, isHealthy := true }

def cfgErrorMsg : String :=
  "No RETTIWT_API_KEYS found. Set them in .env as comma-separated values."

/-- The manager's initialization method: returns the new pool state and, on
failure, the thrown message (the state is unchanged in that case, and on the
already-initialized no-op). -/
def initPool (pool : PoolState) (apiKeys : String) : PoolState × Option String :=
  if pool.initialized then (pool, none)
  else
    let keyList := parseKeys apiKeys
    if keyList.length = 0 then (pool, some cfgErrorMsg)
    else
      ({ pool with
          keys := keyList.enum.map (fun p => mkKeyState p.2 p.1),
          initialized := true },
        none)

-- ============================================================
-- resetKey / resetAll
-- ============================================================

def resetKey (pool : PoolState) (index : Nat) : PoolState :=
  match pool.keys[index]? with
  | none => pool
  | some k =>
    { pool with
        keys := pool.keys.set index { k with cooldownUntil := 0, failCount := 0, isHealthy := true } }

def resetAll (pool : PoolState) : PoolState :=
  { pool with
      keys := pool.keys.map (fun k => { k with cooldownUntil := 0, failCount := 0, isHealthy := true }),
      consecutiveAllExhausted := 0 }

-- ============================================================
-- execute
-- ============================================================

/-- The pre-request spacing: milliseconds slept before using `k` at time `now`
(`REQUEST_DELAY_MS - timeSinceLastUse` when due, else `0`). -/
def delayFor (now : Nat) (k : KeyState) : Nat :=
  let timeSinceLastUse := now - k.lastUsedAt
  if timeSinceLastUse < REQUEST_DELAY_MS && 0 < k.lastUsedAt then
    REQUEST_DELAY_MS - timeSinceLastUse
  else 0

/-- The bookkeeping just before the operation call. -/
def preUse (now : Nat) (k : KeyState) : KeyState :=
  { k with lastUsedAt := now, totalRequests := k.totalRequests + 1 }

/-- The success-path record update. -/
def applySuccess (k : KeyState) : KeyState :=
  { k with successCount := k.successCount + 1, isHealthy := true, failCount := 0 }

/-- The catch-block record update. -/
def applyError (now : Nat) (e : ErrInfo) (k : KeyState) : KeyState :=
  let k1 := { k with lastErrorAt := now, lastError := some e.message }
  if isRateLimitError e then
    { k1 with rateLimitHits := k1.rateLimitHits + 1,
              cooldownUntil := now + RATE_LIMIT_COOLDOWN_MS }
  else
    let k2 := { k1 with failCount := k1.failCount + 1,
                        cooldownUntil := now + ERROR_COOLDOWN_MS }
    if MAX_CONSECUTIVE_FAILS ≤ k2.failCount then { k2 with isHealthy := false } else k2

/-- `Set.add` on the tried-set. -/
def triedInsert (tried : List Nat) (idx : Nat) : List Nat :=
  if tried.contains idx then tried else idx :: tried

def exhaustMsg (opName : String) (n : Nat) : String :=
  "[KEY POOL] All " ++ toString n ++ " keys exhausted for \"" ++ opName ++
  "\". Check your API keys and rate limits."

def notInitMsg : String :=
  "Key pool not initialized. Call initialize() first."

inductive RunOutcome where
  | success (v : Nat)
  | exhausted (msg : String)
  | notInitialized (msg : String)
  | fuelOut
  | scriptOut
deriving DecidableEq, Repr

/-- The observable result of an `execute` run: the final pool state and clock,
the unconsumed tail of the outcome script, the indices the operation was
invoked with (in order), and how the run ended. -/
structure RunResult where
  pool : PoolState
  now : Nat
  script : List Outcome
  invoked : List Nat
  outcome : RunOutcome
deriving DecidableEq, Repr

/-- The retry loop of `execute`.  `fuel` bounds the number of iterations;
`fuelOut` and `scriptOut` mark runs the bound or the script cut short. -/
def executeLoop (opName : String) :
    Nat → PoolState → Nat → List Nat → List Outcome → List Nat → RunResult
  | 0, pool, now, _, script, invoked => ⟨pool, now, script, invoked, .fuelOut⟩
  | fuel + 1, pool, now, tried, script, invoked =>
    if tried.length < pool.keys.length then
      match getNextAvailableKey pool now tried with
      | none =>
        let nextAvailableIn := getNextCooldownEnd pool.keys now
        if 0 < nextAvailableIn then
          let waitTime := min nextAvailableIn ALL_KEYS_EXHAUSTED_WAIT_MS
          executeLoop opName fuel
            { pool with consecutiveAllExhausted := pool.consecutiveAllExhausted + 1 }
            (now + waitTime) [] script invoked
        else
          ⟨pool, now, script, invoked, .exhausted (exhaustMsg opName pool.keys.length)⟩
      | some (idx, pool1) =>
        let tried1 := triedInsert tried idx
        let k0 := (pool1.keys[idx]?).getD default
        let now1 := now + delayFor now k0
        let k1 := preUse now1 k0
        match script with
        | [] => ⟨{ pool1 with keys := pool1.keys.set idx k1 }, now1, [], invoked ++ [idx], .scriptOut⟩
        | .ok v :: rest =>
          ⟨{ pool1 with keys := pool1.keys.set idx (applySuccess k1), consecutiveAllExhausted := 0 },
            now1, rest, invoked ++ [idx], .success v⟩
        | .err e :: rest =>
          executeLoop opName fuel { pool1 with keys := pool1.keys.set idx (applyError now1 e k1) }
            now1 tried1 rest (invoked ++ [idx])
    else
      ⟨pool, now, script, invoked, .exhausted (exhaustMsg opName pool.keys.length)⟩

/-- `execute`: the guard on an uninitialized or empty pool, then the loop
with a fresh tried-set. -/
def execute (opName : String) (fuel : Nat) (pool : PoolState) (now : Nat)
    (script : List Outcome) : RunResult :=
  if !pool.initialized || pool.keys.length == 0 then
    ⟨pool, now, script, [], .notInitialized notInitMsg⟩
  else
    executeLoop opName fuel pool now [] script []

/-- One `execute` call's inputs, for sequencing whole calls. -/
structure CallSpec where
  opName : String
  fuel : Nat
  now : Nat
  script : List Outcome
deriving Repr

/-- The pool state after a sequence of `execute` calls. -/
def runSeq (pool : PoolState) : List CallSpec → PoolState
  | [] => pool
  | c :: cs => runSeq (execute c.opName c.fuel pool c.now c.script).pool cs

-- ============================================================
-- Concrete example states (used to instantiate the theorems)
-- ============================================================

/-- A two-key initialized pool in its fresh state. -/
def examplePool : PoolState :=
  { keys := [mkKeyState "alpha-credential-001" 0, mkKeyState "beta-credential-002" 1],
    currentIndex := 0, initialized := true, consecutiveAllExhausted := 0 }

/-- A one-key initialized pool in its fresh state. -/
def exampleOnePool : PoolState :=
  { keys := [mkKeyState "gamma-credential-003" 0],
    currentIndex := 0, initialized := true, consecutiveAllExhausted := 0 }

/-- A two-key pool whose keys are both unhealthy and past cooldown. -/
def exampleUnhealthyPool : PoolState :=
  { keys := [{ mkKeyState "alpha-credential-001" 0 with isHealthy := false },
             { mkKeyState "beta-credential-002" 1 with isHealthy := false }],
    currentIndex := 0, initialized := true, consecutiveAllExhausted := 0 }

/-- A one-key pool whose key is healthy but cooling until t = 40000. -/
def exampleCoolingPool : PoolState :=
  { keys := [{ mkKeyState "gamma-credential-003" 0 with cooldownUntil := 40000 }],
    currentIndex := 0, initialized := true, consecutiveAllExhausted := 0 }

/-- An uninitialized pool. -/
def exampleUninitPool : PoolState :=
  { keys := [], currentIndex := 0, initialized := false, consecutiveAllExhausted := 0 }

/-- A generic (non-rate-limit) error. -/
def exampleGenericErr : ErrInfo := { message := "socket hang up", code := none }

/-- A rate-limit error. -/
def exampleRateLimitErr : ErrInfo := { message := "Rate limit exceeded", code := none }

-- ============================================================
-- Spec-side characterizations (stated from the spec's words,
-- to be compared with the source functions)
-- ============================================================

/-- The spec's eligibility predicate: the index is not in `tried`, the record
is healthy, and `cooldownUntil ≤ now`. -/
def eligibleSpec (keys : List KeyState) (now : Nat) (tried : List Nat) (idx : Nat) : Bool :=
  !tried.contains idx &&
    match keys[idx]? with
    | none => false
    | some k => k.isHealthy && decide (k.cooldownUntil ≤ now)

/-- The spec's circular scan order: indices
`cursor, cursor+1, …, cursor+N-1`, each reduced mod `N`. -/
def scanOrderSpec (pool : PoolState) : List Nat :=
  (List.range pool.keys.length).map (fun a => (pool.currentIndex + a) % pool.keys.length)

-- ============================================================
-- Helper lemmas
-- ============================================================

theorem strContains_iff (hay needle : List Char) :
    strContains hay needle = true ↔ needle <:+: hay := by
  induction hay with
  | nil => simp [strContains]
  | cons a t ih =>
    rw [strContains]
    simp only [Bool.or_eq_true, List.isPrefixOf_iff_prefix, ih, List.infix_cons_iff]

theorem not_isCoolingDown_eq (now : Nat) (k : KeyState) :
    (!isCoolingDown now k) = decide (k.cooldownUntil ≤ now) := by
  by_cases h : now < k.cooldownUntil
  · simp [isCoolingDown, h, Nat.not_le.mpr h]
  · simp [isCoolingDown, h, Nat.le_of_not_lt h]

theorem findEligibleAux_eq_find? (keys : List KeyState) (now : Nat) (tried : List Nat)
    (start : Nat) (fuel attempt : Nat) :
    findEligibleAux keys now tried start attempt fuel =
      ((List.range' attempt fuel).map (fun a => (start + a) % keys.length)).find?
        (eligibleSpec keys now tried) := by
  by_cases hlen : keys.length = 0
  · have hnil : keys = [] := List.length_eq_zero.mp hlen
    subst hnil
    cases fuel with
    | zero => simp [findEligibleAux]
    | succ fuel =>
      rw [findEligibleAux]
      simp only [List.getElem?_nil]
      rw [eq_comm, List.find?_eq_none]
      intro x _
      simp [eligibleSpec]
  · induction fuel generalizing attempt with
    | zero => simp [findEligibleAux]
    | succ fuel ih =>
      have hidx : (start + attempt) % keys.length < keys.length :=
        Nat.mod_lt _ (Nat.pos_of_ne_zero hlen)
      obtain ⟨k, hget⟩ : ∃ k, keys[(start + attempt) % keys.length]? = some k :=
        ⟨_, List.getElem?_eq_getElem hidx⟩
      rw [findEligibleAux, List.range'_succ, List.map_cons, List.find?_cons]
      by_cases htried : ((start + attempt) % keys.length) ∈ tried
      · have hc : tried.contains ((start + attempt) % keys.length) = true := by
          simpa using htried
        simp [eligibleSpec, htried, hc, hget, ih (attempt + 1)]
      · have hc : tried.contains ((start + attempt) % keys.length) = false := by
          simpa using htried
        by_cases hhealthy : k.isHealthy = true
        · by_cases hcool : isCoolingDown now k = true
          · have h2 : decide (k.cooldownUntil ≤ now) = false := by
              have h3 := not_isCoolingDown_eq now k
              rw [hcool] at h3
              exact h3.symm
            simp [eligibleSpec, htried, hc, hget, hhealthy, hcool, h2, ih (attempt + 1)]
          · have hcool' : isCoolingDown now k = false := Bool.eq_false_iff.mpr hcool
            have h2 : decide (k.cooldownUntil ≤ now) = true := by
              have h3 := not_isCoolingDown_eq now k
              rw [hcool'] at h3
              exact h3.symm
            simp [eligibleSpec, htried, hc, hget, hhealthy, hcool', h2]
        · have hhealthy' : k.isHealthy = false := Bool.eq_false_iff.mpr hhealthy
          simp [eligibleSpec, htried, hc, hget, hhealthy', ih (attempt + 1)]

theorem findEligibleAux_some {keys : List KeyState} {now : Nat} {tried : List Nat}
    {start fuel attempt idx : Nat}
    (h : findEligibleAux keys now tried start attempt fuel = some idx) :
    ∃ k, keys[idx]? = some k ∧ tried.contains idx = false ∧
      k.isHealthy = true ∧ isCoolingDown now k = false := by
  induction fuel generalizing attempt with
  | zero => simp [findEligibleAux] at h
  | succ fuel ih =>
    rw [findEligibleAux] at h
    rcases hget : keys[(start + attempt) % keys.length]? with _ | k
    · rw [hget] at h; exact absurd h (by simp)
    · rw [hget] at h
      simp only [] at h
      by_cases htried : tried.contains ((start + attempt) % keys.length) = true
      · rw [htried] at h
        simp only [if_true] at h
        exact ih h
      · have hc : tried.contains ((start + attempt) % keys.length) = false :=
          Bool.eq_false_iff.mpr htried
        rw [hc] at h
        simp only [Bool.false_eq_true, if_false] at h
        by_cases hhealthy : k.isHealthy = true
        · rw [hhealthy] at h
          simp only [Bool.not_true, Bool.false_eq_true, if_false] at h
          by_cases hcool : isCoolingDown now k = true
          · rw [if_pos hcool] at h
            exact ih h
          · rw [if_neg hcool] at h
            obtain rfl : (start + attempt) % keys.length = idx := Option.some.inj h
            exact ⟨k, hget, hc, hhealthy, Bool.eq_false_iff.mpr hcool⟩
        · rw [Bool.eq_false_iff.mpr hhealthy] at h
          simp only [Bool.not_false, if_true] at h
          exact ih h

theorem getNextAvailableKey_eq_some {pool : PoolState} {now : Nat} {tried : List Nat}
    {idx : Nat} {pool1 : PoolState}
    (h : getNextAvailableKey pool now tried = some (idx, pool1)) :
    findEligibleAux pool.keys now tried pool.currentIndex 0 pool.keys.length = some idx ∧
      pool1 = { pool with currentIndex := (idx + 1) % pool.keys.length } := by
  unfold getNextAvailableKey at h
  rcases heq : findEligibleAux pool.keys now tried pool.currentIndex 0 pool.keys.length with _ | j
  · rw [heq] at h; exact absurd h (by simp)
  · rw [heq] at h
    have h' : (j, { pool with currentIndex := (j + 1) % pool.keys.length }) = (idx, pool1) :=
      Option.some.inj h
    obtain ⟨h1, h2⟩ := Prod.mk.inj h'
    subst h1
    subst h2
    exact ⟨rfl, rfl⟩

/-- The selector only returns healthy, non-cooling, untried indices of the pool. -/
theorem getNextAvailableKey_sound {pool : PoolState} {now : Nat} {tried : List Nat}
    {idx : Nat} {pool1 : PoolState}
    (h : getNextAvailableKey pool now tried = some (idx, pool1)) :
    ∃ k, pool.keys[idx]? = some k ∧ tried.contains idx = false ∧
      k.isHealthy = true ∧ isCoolingDown now k = false ∧
      pool1 = { pool with currentIndex := (idx + 1) % pool.keys.length } := by
  obtain ⟨h1, h2⟩ := getNextAvailableKey_eq_some h
  obtain ⟨k, hk, ht, hh, hc⟩ := findEligibleAux_some h1
  exact ⟨k, hk, ht, hh, hc, h2⟩

-- ============================================================
-- Claims
-- ============================================================

/-- C1: `getNextAvailableKey` scans in circular order from the cursor and
returns exactly the first index that is untried, healthy and past cooldown
(`cooldownUntil ≤ now`), advancing the cursor to `(foundIndex + 1) mod N`;
it returns `none` exactly when no index of the full circular scan is
eligible (and then no cursor update is produced). -/
theorem getNextAvailableKey_correct (pool : PoolState) (now : Nat) (tried : List Nat) :
    getNextAvailableKey pool now tried =
      ((scanOrderSpec pool).find? (eligibleSpec pool.keys now tried)).map
        (fun idx => (idx, { pool with currentIndex := (idx + 1) % pool.keys.length })) ∧
    (getNextAvailableKey pool now tried = none ↔
      ∀ idx ∈ scanOrderSpec pool, ¬ eligibleSpec pool.keys now tried idx = true) := by
  have hmain : getNextAvailableKey pool now tried =
      ((scanOrderSpec pool).find? (eligibleSpec pool.keys now tried)).map
        (fun idx => (idx, { pool with currentIndex := (idx + 1) % pool.keys.length })) := by
    unfold getNextAvailableKey
    rw [findEligibleAux_eq_find?]
    rw [scanOrderSpec, List.range_eq_range']
    rcases h : (List.range' 0 pool.keys.length).map
        (fun a => (pool.currentIndex + a) % pool.keys.length)
      |>.find? (eligibleSpec pool.keys now tried) with _ | j
    · rfl
    · rfl
  refine ⟨hmain, ?_⟩
  rw [hmain]
  simp [List.find?_eq_none]


/-- C5: `isRateLimitError e` is true iff the lower-cased message contains
"rate limit" or "too many requests", or the numeric code is 88 or 429;
for every other error it is false. -/
theorem isRateLimitError_correct (e : ErrInfo) :
    isRateLimitError e = true ↔
      ("rate limit".data <:+: (lowerStr e.message).data ∨
       "too many requests".data <:+: (lowerStr e.message).data ∨
       e.code = some 88 ∨ e.code = some 429) := by
  unfold isRateLimitError
  simp [strContains_iff, Bool.or_eq_true]
  tauto

/-- C9: masking a credential of length at most 12 yields the fixed mask
`***`; a longer credential is masked to exactly its first 6 characters, an
ellipsis, and its last 6 characters, with no other characters. -/
theorem maskKey_correct (key : List Char) :
    (key.length ≤ 12 → maskKeyL key = ['*', '*', '*']) ∧
    (12 < key.length →
      maskKeyL key = key.take 6 ++ ['.', '.', '.'] ++ key.drop (key.length - 6) ∧
      (maskKeyL key).length = 15 ∧
      ∀ c ∈ maskKeyL key, c ∈ key.take 6 ∨ c ∈ key.drop (key.length - 6) ∨ c = '.') := by
  constructor
  · intro h
    simp [maskKeyL, h]
  · intro h
    have h' : ¬ key.length ≤ 12 := Nat.not_le.mpr h
    refine ⟨by simp [maskKeyL, h'], ?_, ?_⟩
    · rw [maskKeyL, if_neg h']
      simp only [List.length_append, List.length_take, List.length_drop,
        List.length_cons, List.length_nil]
      omega
    · intro c hc
      rw [maskKeyL, if_neg h'] at hc
      rcases List.mem_append.mp hc with h1 | h1
      · rcases List.mem_append.mp h1 with h2 | h2
        · exact Or.inl h2
        · right; right
          simpa using h2
      · exact Or.inr (Or.inl h1)

/-- Witness for C9 at a 10-character and a 20-character credential. -/
theorem maskKey_correct_witness :
    maskKeyL "0123456789".data = ['*', '*', '*'] ∧
    maskKeyL "0123456789abcdefghij".data = "012345...efghij".data := by
  constructor
  · exact (maskKey_correct "0123456789".data).1 (by decide)
  · have h := ((maskKey_correct "0123456789abcdefghij".data).2 (by decide)).1
    rw [h]
    decide

/-- C2: on a failed attempt, a rate-limit error increments `rateLimitHits`,
sets `cooldownUntil = now + 15min` and leaves `failCount` unchanged; any other
error increments `failCount`, sets `cooldownUntil = now + 2min` and makes the
record unhealthy exactly when the incremented count reaches 5; in both cases
the error time and message are recorded, and the loop recurses on the next
eligible record. -/
theorem failureHandling_correct :
    (∀ now e k,
      (applyError now e k).lastErrorAt = now ∧
      (applyError now e k).lastError = some e.message ∧
      (isRateLimitError e = true →
        (applyError now e k).rateLimitHits = k.rateLimitHits + 1 ∧
        (applyError now e k).cooldownUntil = now + 15 * 60 * 1000 ∧
        (applyError now e k).failCount = k.failCount) ∧
      (isRateLimitError e = false →
        (applyError now e k).failCount = k.failCount + 1 ∧
        (applyError now e k).cooldownUntil = now + 2 * 60 * 1000 ∧
        ((applyError now e k).isHealthy = false ↔
          5 ≤ k.failCount + 1 ∨ k.isHealthy = false))) ∧
    (∀ opName fuel pool now tried idx pool1 e rest invoked k0,
      tried.length < pool.keys.length →
      getNextAvailableKey pool now tried = some (idx, pool1) →
      pool.keys[idx]? = some k0 →
      executeLoop opName (fuel + 1) pool now tried (Outcome.err e :: rest) invoked =
        executeLoop opName fuel
          { pool1 with
              keys := pool1.keys.set idx
                (applyError (now + delayFor now k0) e (preUse (now + delayFor now k0) k0)) }
          (now + delayFor now k0) (triedInsert tried idx) rest (invoked ++ [idx])) := by
  constructor
  · intro now e k
    by_cases hrl : isRateLimitError e = true
    · refine ⟨by simp [applyError, hrl], by simp [applyError, hrl],
        fun _ => ⟨?_, ?_, ?_⟩, fun hfalse => ?_⟩
      · simp [applyError, hrl]
      · simp [applyError, hrl, RATE_LIMIT_COOLDOWN_MS]
      · simp [applyError, hrl]
      · rw [hrl] at hfalse
        exact absurd hfalse (by simp)
    · have hrl' : isRateLimitError e = false := Bool.eq_false_iff.mpr hrl
      by_cases h5 : MAX_CONSECUTIVE_FAILS ≤ k.failCount + 1
      · refine ⟨by simp [applyError, hrl', h5], by simp [applyError, hrl', h5],
          fun htrue => absurd htrue hrl, fun _ => ⟨?_, ?_, ?_⟩⟩
        · simp [applyError, hrl', h5]
        · simp [applyError, hrl', h5, ERROR_COOLDOWN_MS]
        · have hH : (applyError now e k).isHealthy = false := by
            simp [applyError, hrl', h5]
          rw [hH]
          simp only [true_iff]
          exact Or.inl (by simpa [MAX_CONSECUTIVE_FAILS] using h5)
      · refine ⟨by simp [applyError, hrl', h5], by simp [applyError, hrl', h5],
          fun htrue => absurd htrue hrl, fun _ => ⟨?_, ?_, ?_⟩⟩
        · simp [applyError, hrl', h5]
        · simp [applyError, hrl', h5, ERROR_COOLDOWN_MS]
        · have hH : (applyError now e k).isHealthy = k.isHealthy := by
            simp [applyError, hrl', h5]
          rw [hH]
          constructor
          · intro h
            exact Or.inr h
          · intro h
            rcases h with h | h
            · exact absurd (by simpa [MAX_CONSECUTIVE_FAILS] using h) h5
            · exact h
  · intro opName fuel pool now tried idx pool1 e rest invoked k0 hlt hsel hk
    obtain ⟨-, hp1⟩ := getNextAvailableKey_eq_some hsel
    subst hp1
    rw [executeLoop, if_pos hlt, hsel]
    simp only [hk, Option.getD_some]

/-- Witness for C2: a generic failure on a fresh one-key pool. -/
theorem failureHandling_correct_witness :
    (applyError 0 exampleGenericErr (mkKeyState "gamma-credential-003" 0)).failCount =
      (mkKeyState "gamma-credential-003" 0).failCount + 1 ∧
    executeLoop "req" 1 exampleOnePool 0 [] [Outcome.err exampleGenericErr] [] =
      executeLoop "req" 0
        { exampleOnePool with
            currentIndex := 1 % 1,
            keys := [mkKeyState "gamma-credential-003" 0].set 0
              (applyError (0 + delayFor 0 (mkKeyState "gamma-credential-003" 0))
                exampleGenericErr
                (preUse (0 + delayFor 0 (mkKeyState "gamma-credential-003" 0))
                  (mkKeyState "gamma-credential-003" 0))) }
        (0 + delayFor 0 (mkKeyState "gamma-credential-003" 0)) (triedInsert [] 0)
        [] ([] ++ [0]) := by
  constructor
  · exact ((failureHandling_correct.1 0 exampleGenericErr
      (mkKeyState "gamma-credential-003" 0)).2.2.2 (by decide)).1
  · exact failureHandling_correct.2 "req" 0 exampleOnePool 0 [] 0
      { exampleOnePool with currentIndex := 1 % 1 } exampleGenericErr [] []
      (mkKeyState "gamma-credential-003" 0) (by decide) (by decide) (by decide)

/-- C10: a rate-limit-classified failure never changes `failCount` and never
clears the healthy flag — per update step, and across a whole `executeLoop`
run whose script consists solely of rate-limit errors. -/
theorem rateLimit_preserves_health :
    (∀ now e k, isRateLimitError e = true →
      (applyError now e k).failCount = k.failCount ∧
      (applyError now e k).isHealthy = k.isHealthy) ∧
    (∀ opName fuel pool now tried script invoked,
      (∀ o ∈ script, ∃ e, o = Outcome.err e ∧ isRateLimitError e = true) →
      ∀ i : Nat, ((executeLoop opName fuel pool now tried script invoked).pool.keys[i]?).map
          (fun k : KeyState => (k.failCount, k.isHealthy)) =
        (pool.keys[i]?).map (fun k : KeyState => (k.failCount, k.isHealthy))) := by
  have hstep : ∀ now e k, isRateLimitError e = true →
      (applyError now e k).failCount = k.failCount ∧
      (applyError now e k).isHealthy = k.isHealthy := by
    intro now e k hrl
    constructor <;> simp [applyError, hrl]
  refine ⟨hstep, ?_⟩
  intro opName fuel
  induction fuel with
  | zero => intro pool now tried script invoked hall i; rfl
  | succ fuel ih =>
    intro pool now tried script invoked hall i
    rw [executeLoop]
    by_cases hlt : tried.length < pool.keys.length
    · rw [if_pos hlt]
      rcases hsel : getNextAvailableKey pool now tried with _ | ⟨idx, pool1⟩
      · by_cases hw : 0 < getNextCooldownEnd pool.keys now
        · rw [if_pos hw]
          exact ih _ _ _ _ _ hall i
        · rw [if_neg hw]
      · obtain ⟨k0, hk0, -, -, -, hp1⟩ := getNextAvailableKey_sound hsel
        have hidx : idx < pool.keys.length := by
          rcases List.getElem?_eq_some.mp hk0 with ⟨h, -⟩
          exact h
        subst hp1
        simp only [hk0, Option.getD_some]
        have hset : ∀ k' : KeyState, k'.failCount = k0.failCount →
            k'.isHealthy = k0.isHealthy →
            ((pool.keys.set idx k')[i]?).map (fun k => (k.failCount, k.isHealthy)) =
              (pool.keys[i]?).map (fun k => (k.failCount, k.isHealthy)) := by
          intro k' hf hh
          by_cases hi : idx = i
          · subst hi
            rw [List.getElem?_set_self hidx, hk0]
            simp [hf, hh]
          · rw [List.getElem?_set_ne hi]
        rcases script with _ | ⟨o, rest⟩
        · exact hset _ rfl rfl
        · rcases o with v | e
          · exact absurd (hall _ (List.mem_cons_self _ _)) (by simp)
          · have hrl : isRateLimitError e = true := by
              obtain ⟨e', he', hrl'⟩ := hall _ (List.mem_cons_self _ _)
              cases he'
              exact hrl'
            have hrest : ∀ o ∈ rest, ∃ e, o = Outcome.err e ∧ isRateLimitError e = true :=
              fun o ho => hall o (List.mem_cons_of_mem _ ho)
            exact (ih _ _ _ _ _ hrest i).trans
              (hset _ (((hstep _ e _ hrl).1).trans rfl)
                (((hstep _ e _ hrl).2).trans rfl))
    · rw [if_neg hlt]

/-- Witness for C10: two rate-limit failures leave the key's `failCount` at 0
and its healthy flag set. -/
theorem rateLimit_preserves_health_witness :
    (applyError 0 exampleRateLimitErr (mkKeyState "gamma-credential-003" 0)).failCount =
      (mkKeyState "gamma-credential-003" 0).failCount ∧
    ((executeLoop "req" 3 exampleOnePool 0 []
        [Outcome.err exampleRateLimitErr, Outcome.err exampleRateLimitErr]
        []).pool.keys[0]?).map (fun k => (k.failCount, k.isHealthy)) =
      (exampleOnePool.keys[0]?).map (fun k => (k.failCount, k.isHealthy)) := by
  constructor
  · exact (rateLimit_preserves_health.1 0 exampleRateLimitErr
      (mkKeyState "gamma-credential-003" 0) (by decide)).1
  · refine rateLimit_preserves_health.2 "req" 3 exampleOnePool 0 [] _ [] ?_ 0
    intro o ho
    have h2 : o = Outcome.err exampleRateLimitErr ∨ o = Outcome.err exampleRateLimitErr := by
      simpa using ho
    rcases h2 with rfl | rfl <;> exact ⟨exampleRateLimitErr, rfl, by decide⟩

/-- C7: initialization splits on commas, trims, drops empties; an empty result
list is a configuration error leaving the pool untouched; otherwise it builds
one fresh healthy zero-counter record per entry, in input order with indices
0..N-1; a second call on an initialized pool is a silent no-op. -/
theorem initPool_correct :
    (∀ pool s, pool.initialized = true → initPool pool s = (pool, none)) ∧
    (∀ pool s, pool.initialized = false → parseKeys s = [] →
      initPool pool s = (pool, some cfgErrorMsg)) ∧
    (∀ pool s, pool.initialized = false → parseKeys s ≠ [] →
      ∃ pool', initPool pool s = (pool', none) ∧ pool'.initialized = true ∧
        pool'.keys.map (fun k => k.index) = List.range (parseKeys s).length ∧
        pool'.keys.map (fun k => k.key) = parseKeys s ∧
        ∀ k ∈ pool'.keys, k.isHealthy = true ∧ k.cooldownUntil = 0 ∧
          k.totalRequests = 0 ∧ k.successCount = 0 ∧ k.failCount = 0 ∧
          k.rateLimitHits = 0) ∧
    (∀ s k, k ∈ parseKeys s → 0 < k.length) := by
  refine ⟨?_, ?_, ?_, fun s k hk => by simpa using (List.mem_filter.mp hk).2⟩
  · intro pool s h
    simp [initPool, h]
  · intro pool s h h2
    simp [initPool, h, h2]
  · intro pool s h h2
    refine ⟨{ pool with
        keys := (parseKeys s).enum.map (fun p => mkKeyState p.2 p.1),
        initialized := true }, ?_, rfl, ?_, ?_, ?_⟩
    · simp only [initPool]
      rw [if_neg (by simp [h]), if_neg (fun hh => h2 (List.length_eq_zero.mp hh))]
    · rw [List.map_map]
      have hcomp : ((fun k : KeyState => k.index) ∘ fun p : Nat × String => mkKeyState p.2 p.1) =
          Prod.fst := rfl
      rw [hcomp, List.enum_map_fst]
    · rw [List.map_map]
      have hcomp : ((fun k : KeyState => k.key) ∘ fun p : Nat × String => mkKeyState p.2 p.1) =
          Prod.snd := rfl
      rw [hcomp, List.enum_map_snd]
    · intro k hk
      simp only [List.mem_map] at hk
      obtain ⟨p, -, rfl⟩ := hk
      exact ⟨rfl, rfl, rfl, rfl, rfl, rfl⟩

/-- Witness for C7: a no-op re-initialization, a whitespace-only failure, and
a successful three-entry initialization. -/
theorem initPool_correct_witness :
    initPool examplePool "x,y" = (examplePool, none) ∧
    initPool exampleUninitPool "  " = (exampleUninitPool, some cfgErrorMsg) ∧
    (∃ pool', initPool exampleUninitPool "a, b ,, c" = (pool', none) ∧
      pool'.keys.map (fun k => k.key) = parseKeys "a, b ,, c") ∧
    0 < ("a" : String).length := by
  refine ⟨initPool_correct.1 examplePool "x,y" (by decide), ?_, ?_, ?_⟩
  · exact initPool_correct.2.1 exampleUninitPool "  " (by decide) (by decide)
  · obtain ⟨pool', h1, -, -, h2, -⟩ :=
      initPool_correct.2.2.1 exampleUninitPool "a, b ,, c" (by decide) (by decide)
    exact ⟨pool', h1, h2⟩
  · exact initPool_correct.2.2.2 "a,b" "a" (by decide)

theorem foldl_min_le (cs : List Nat) : ∀ c x : Nat, x ∈ c :: cs → cs.foldl min c ≤ x := by
  induction cs with
  | nil =>
    intro c x hx
    rw [List.foldl_nil]
    simp at hx
    omega
  | cons hd tl ih =>
    intro c x hx
    rw [List.foldl_cons]
    have hle : tl.foldl min (min c hd) ≤ min c hd :=
      ih (min c hd) (min c hd) (List.mem_cons_self _ _)
    rcases List.mem_cons.mp hx with rfl | hx'
    · exact hle.trans (Nat.min_le_left _ _)
    · rcases List.mem_cons.mp hx' with rfl | hx''
      · exact hle.trans (Nat.min_le_right _ _)
      · exact ih (min c hd) x (List.mem_cons_of_mem _ hx'')

theorem foldl_min_mem (cs : List Nat) (c : Nat) : cs.foldl min c ∈ c :: cs := by
  induction cs generalizing c with
  | nil => simp
  | cons hd tl ih =>
    rw [List.foldl_cons]
    rcases List.mem_cons.mp (ih (min c hd)) with heq | hmem
    · rw [heq]
      rcases min_choice c hd with h | h
      · rw [h]; exact List.mem_cons_self _ _
      · rw [h]; exact List.mem_cons_of_mem _ (List.mem_cons_self _ _)
    · exact List.mem_cons_of_mem _ (List.mem_cons_of_mem _ hmem)

theorem getNextCooldownEnd_spec (keys : List KeyState) (now : Nat)
    (h : ∃ k ∈ keys, now < k.cooldownUntil) :
    0 < getNextCooldownEnd keys now ∧
    getNextCooldownEnd keys now ∈
      (keys.filter (fun k => decide (now < k.cooldownUntil))).map
        (fun k => k.cooldownUntil - now) ∧
    ∀ x ∈ (keys.filter (fun k => decide (now < k.cooldownUntil))).map
        (fun k => k.cooldownUntil - now),
      getNextCooldownEnd keys now ≤ x := by
  obtain ⟨k, hk, hcool⟩ := h
  have hkmem : k ∈ keys.filter (fun k => decide (now < k.cooldownUntil)) :=
    List.mem_filter.mpr ⟨hk, by simpa using hcool⟩
  rcases hmap : (keys.filter (fun k => decide (now < k.cooldownUntil))).map
      (fun k => k.cooldownUntil) with _ | ⟨c, cs⟩
  · exact absurd (List.map_eq_nil_iff.mp hmap ▸ hkmem) (List.not_mem_nil _)
  · have hval : getNextCooldownEnd keys now = cs.foldl min c - now := by
      simp only [getNextCooldownEnd]
      rw [hmap]
    have hallgt : ∀ x ∈ c :: cs, now < x := by
      intro x hx
      rw [← hmap] at hx
      obtain ⟨k', hk', rfl⟩ := List.mem_map.mp hx
      simpa using (List.mem_filter.mp hk').2
    have hemem : cs.foldl min c ∈ c :: cs := foldl_min_mem cs c
    have hgt : now < cs.foldl min c := hallgt _ hemem
    have hmapsub :
        (keys.filter (fun k => decide (now < k.cooldownUntil))).map
            (fun k => k.cooldownUntil - now) =
          (c :: cs).map (fun x => x - now) := by
      rw [← hmap, List.map_map]
      rfl
    refine ⟨?_, ?_, ?_⟩
    · rw [hval]; omega
    · rw [hval, hmapsub]
      exact List.mem_map.mpr ⟨cs.foldl min c, hemem, rfl⟩
    · intro x hx
      rw [hmapsub] at hx
      obtain ⟨y, hy, rfl⟩ := List.mem_map.mp hx
      rw [hval]
      exact Nat.sub_le_sub_right (foldl_min_le cs c y hy) now

theorem getNextCooldownEnd_zero (keys : List KeyState) (now : Nat)
    (h : ∀ k ∈ keys, k.cooldownUntil ≤ now) :
    getNextCooldownEnd keys now = 0 := by
  have hfil : keys.filter (fun k => decide (now < k.cooldownUntil)) = [] :=
    List.filter_eq_nil_iff.mpr (fun k hk => by simpa using Nat.not_lt.mpr (h k hk))
  simp only [getNextCooldownEnd]
  rw [hfil]
  rfl

/-- C3: when the selector finds nothing and some record is cooling,
`execute` sleeps `min(soonest cooldown expiry - now, 30s)`, increments the
exhaustion counter, clears the tried-set and continues; when nothing is
cooling it exits the loop with the exhaustion failure. -/
theorem exhaustionWait_correct (opName : String) (fuel : Nat) (pool : PoolState)
    (now : Nat) (tried : List Nat) (script : List Outcome) (invoked : List Nat)
    (hlt : tried.length < pool.keys.length)
    (hsel : getNextAvailableKey pool now tried = none) :
    ((∃ k ∈ pool.keys, now < k.cooldownUntil) →
      0 < getNextCooldownEnd pool.keys now ∧
      getNextCooldownEnd pool.keys now ∈
        (pool.keys.filter (fun k => decide (now < k.cooldownUntil))).map
          (fun k => k.cooldownUntil - now) ∧
      (∀ x ∈ (pool.keys.filter (fun k => decide (now < k.cooldownUntil))).map
          (fun k => k.cooldownUntil - now),
        getNextCooldownEnd pool.keys now ≤ x) ∧
      executeLoop opName (fuel + 1) pool now tried script invoked =
        executeLoop opName fuel
          { pool with consecutiveAllExhausted := pool.consecutiveAllExhausted + 1 }
          (now + min (getNextCooldownEnd pool.keys now) ALL_KEYS_EXHAUSTED_WAIT_MS)
          [] script invoked) ∧
    ((∀ k ∈ pool.keys, k.cooldownUntil ≤ now) →
      executeLoop opName (fuel + 1) pool now tried script invoked =
        ⟨pool, now, script, invoked, .exhausted (exhaustMsg opName pool.keys.length)⟩) := by
  constructor
  · intro hex
    obtain ⟨hpos, hmem, hbound⟩ := getNextCooldownEnd_spec pool.keys now hex
    refine ⟨hpos, hmem, hbound, ?_⟩
    rw [executeLoop, if_pos hlt, hsel]
    simp only [if_pos hpos]
  · intro hall
    have h0 := getNextCooldownEnd_zero pool.keys now hall
    rw [executeLoop, if_pos hlt, hsel]
    rw [h0]
    rfl

/-- Witness for C3: a one-key pool cooling until t = 40000, at t = 0. -/
theorem exhaustionWait_correct_witness :
    0 < getNextCooldownEnd exampleCoolingPool.keys 0 ∧
    executeLoop "req" 1 exampleCoolingPool 0 [] [] [] =
      executeLoop "req" 0
        { exampleCoolingPool with
            consecutiveAllExhausted := exampleCoolingPool.consecutiveAllExhausted + 1 }
        (0 + min (getNextCooldownEnd exampleCoolingPool.keys 0) ALL_KEYS_EXHAUSTED_WAIT_MS)
        [] [] [] ∧
    executeLoop "req" 1 exampleUnhealthyPool 0 [] [] [] =
      ⟨exampleUnhealthyPool, 0, [], [],
        RunOutcome.exhausted (exhaustMsg "req" exampleUnhealthyPool.keys.length)⟩ := by
  have h := exhaustionWait_correct "req" 0 exampleCoolingPool 0 [] [] []
    (by decide) (by decide)
  obtain ⟨h1, -, -, h2⟩ := h.1
    ⟨{ mkKeyState "gamma-credential-003" 0 with cooldownUntil := 40000 },
      by decide, by decide⟩
  have h3 := (exhaustionWait_correct "req" 0 exampleUnhealthyPool 0 [] [] []
    (by decide) (by decide)).2 (by decide)
  exact ⟨h1, h2, h3⟩

/-- C4: a successful attempt increments the chosen record's `successCount`,
resets its `failCount` to 0 and its healthy flag to true, resets the global
exhaustion counter, and returns the result immediately: the rest of the
script is untouched and the chosen index is the last one invoked. -/
theorem successPath_correct (opName : String) (fuel : Nat) (pool : PoolState)
    (now : Nat) (tried : List Nat) (idx : Nat) (pool1 : PoolState) (k0 : KeyState)
    (v : Nat) (rest : List Outcome) (invoked : List Nat)
    (hlt : tried.length < pool.keys.length)
    (hsel : getNextAvailableKey pool now tried = some (idx, pool1))
    (hk0 : pool.keys[idx]? = some k0) :
    (executeLoop opName (fuel + 1) pool now tried (Outcome.ok v :: rest) invoked).outcome =
      RunOutcome.success v ∧
    (executeLoop opName (fuel + 1) pool now tried (Outcome.ok v :: rest) invoked).script =
      rest ∧
    (executeLoop opName (fuel + 1) pool now tried (Outcome.ok v :: rest) invoked).invoked =
      invoked ++ [idx] ∧
    (executeLoop opName (fuel + 1) pool now tried
        (Outcome.ok v :: rest) invoked).pool.consecutiveAllExhausted = 0 ∧
    ∃ k', (executeLoop opName (fuel + 1) pool now tried
        (Outcome.ok v :: rest) invoked).pool.keys[idx]? = some k' ∧
      k'.successCount = k0.successCount + 1 ∧ k'.failCount = 0 ∧ k'.isHealthy = true := by
  obtain ⟨-, hp1⟩ := getNextAvailableKey_eq_some hsel
  subst hp1
  have hidx : idx < pool.keys.length := by
    rcases List.getElem?_eq_some.mp hk0 with ⟨h, -⟩
    exact h
  rw [executeLoop, if_pos hlt, hsel]
  simp only [hk0, Option.getD_some]
  refine ⟨by trivial, by trivial, by trivial, by trivial, ?_⟩
  exact ⟨_, List.getElem?_set_self hidx, rfl, rfl, rfl⟩

/-- Witness for C4: a first-attempt success on a fresh one-key pool. -/
theorem successPath_correct_witness :
    (executeLoop "req" 1 exampleOnePool 0 [] [Outcome.ok 5] []).outcome =
      RunOutcome.success 5 ∧
    (executeLoop "req" 1 exampleOnePool 0 [] [Outcome.ok 5] []).script = [] ∧
    (executeLoop "req" 1 exampleOnePool 0 [] [Outcome.ok 5] []).invoked = [] ++ [0] ∧
    ∃ k', (executeLoop "req" 1 exampleOnePool 0 [] [Outcome.ok 5] []).pool.keys[0]? =
        some k' ∧ k'.successCount = (mkKeyState "gamma-credential-003" 0).successCount + 1 := by
  obtain ⟨h1, h2, h3, -, k', h4, h5, -, -⟩ :=
    successPath_correct "req" 0 exampleOnePool 0 [] 0
      { exampleOnePool with currentIndex := 1 % 1 } (mkKeyState "gamma-credential-003" 0)
      5 [] [] (by decide) (by decide) (by decide)
  exact ⟨h1, h2, h3, k', h4, h5⟩

theorem executeLoop_outcomes (opName : String) (fuel : Nat) :
    ∀ (pool : PoolState) (now : Nat) (tried : List Nat) (script : List Outcome)
      (invoked : List Nat),
      (executeLoop opName fuel pool now tried script invoked).pool.keys.length =
        pool.keys.length ∧
      (∀ msg, (executeLoop opName fuel pool now tried script invoked).outcome =
          RunOutcome.exhausted msg → msg = exhaustMsg opName pool.keys.length) ∧
      (∀ msg, (executeLoop opName fuel pool now tried script invoked).outcome ≠
          RunOutcome.notInitialized msg) := by
  induction fuel with
  | zero =>
    intro pool now tried script invoked
    exact ⟨rfl, fun msg h => absurd h (by simp [executeLoop]),
      fun msg h => absurd h (by simp [executeLoop])⟩
  | succ fuel ih =>
    intro pool now tried script invoked
    rw [executeLoop]
    by_cases hlt : tried.length < pool.keys.length
    · rw [if_pos hlt]
      rcases hsel : getNextAvailableKey pool now tried with _ | ⟨idx, pool1⟩
      · by_cases hw : 0 < getNextCooldownEnd pool.keys now
        · rw [if_pos hw]
          exact ih _ _ _ _ _
        · rw [if_neg hw]
          exact ⟨rfl, fun msg h => (RunOutcome.exhausted.inj h).symm,
            fun msg h => by simp at h⟩
      · obtain ⟨k0, hk0, -, -, -, hp1⟩ := getNextAvailableKey_sound hsel
        subst hp1
        simp only [hk0, Option.getD_some]
        rcases script with _ | ⟨o, rest⟩
        · exact ⟨by simp, fun msg h => absurd h (by simp), fun msg h => by simp at h⟩
        · rcases o with v | e
          · exact ⟨by simp, fun msg h => absurd h (by simp), fun msg h => by simp at h⟩
          · obtain ⟨ih1, ih2, ih3⟩ := ih
              { keys := pool.keys.set idx
                  (applyError (now + delayFor now k0) e (preUse (now + delayFor now k0) k0)),
                currentIndex := (idx + 1) % pool.keys.length,
                initialized := pool.initialized,
                consecutiveAllExhausted := pool.consecutiveAllExhausted }
              (now + delayFor now k0) (triedInsert tried idx) rest (invoked ++ [idx])
            refine ⟨ih1.trans (by simp), fun msg h => ?_, ih3⟩
            rw [ih2 msg h]
            simp
    · rw [if_neg hlt]
      exact ⟨rfl, fun msg h => (RunOutcome.exhausted.inj h).symm,
        fun msg h => by simp at h⟩

/-- C6 (amended): whenever the retry loop of `execute` on an initialized pool
exits without success it fails with the exhaustion error naming the operation
and the total number of credentials in the pool, and no other error (in
particular no per-attempt error and no initialization error) is surfaced. -/
theorem exhaustion_error_correct :
    (∀ opName fuel pool now script msg, pool.initialized = true →
      (execute opName fuel pool now script).outcome = RunOutcome.exhausted msg →
      msg = exhaustMsg opName pool.keys.length) ∧
    (∀ opName fuel pool now script msg, pool.initialized = true →
      0 < pool.keys.length →
      (execute opName fuel pool now script).outcome ≠ RunOutcome.notInitialized msg) := by
  constructor
  · intro opName fuel pool now script msg hinit h
    rw [execute] at h
    by_cases hz : pool.keys.length = 0
    · rw [if_pos (by simp [hinit, hz])] at h
      exact absurd h (by simp)
    · rw [if_neg (by simp [hinit, hz])] at h
      exact (executeLoop_outcomes opName fuel pool now [] script []).2.1 msg h
  · intro opName fuel pool now script msg hinit hpos h
    rw [execute] at h
    rw [if_neg (by simp [hinit, Nat.pos_iff_ne_zero.mp hpos])] at h
    exact (executeLoop_outcomes opName fuel pool now [] script []).2.2 msg h

/-- Counterexample to C6 as stated: on a pool of two unhealthy, non-cooling
credentials, `execute` tries zero credentials (no invocation happens) yet the
exhaustion message names the pool size 2, not the number tried. -/
theorem exhaustion_error_counterexample :
    (execute "fetch" 5 exampleUnhealthyPool 0 []).outcome =
      RunOutcome.exhausted (exhaustMsg "fetch" 2) ∧
    (execute "fetch" 5 exampleUnhealthyPool 0 []).invoked = [] ∧
    exhaustMsg "fetch" 2 ≠ exhaustMsg "fetch" 0 := by
  refine ⟨by decide, by decide, by decide⟩

/-- Witness for C6 (amended): a run that ends exhausted carries exactly the
pool-sized message, and no run on this initialized pool reports the
initialization error. -/
theorem exhaustion_error_correct_witness :
    exhaustMsg "fetch" 2 = exhaustMsg "fetch" exampleUnhealthyPool.keys.length ∧
    (execute "fetch" 5 exampleUnhealthyPool 0 []).outcome ≠
      RunOutcome.notInitialized notInitMsg := by
  constructor
  · exact exhaustion_error_correct.1 "fetch" 5 exampleUnhealthyPool 0 [] _
      (by decide) (by decide)
  · exact exhaustion_error_correct.2 "fetch" 5 exampleUnhealthyPool 0 [] notInitMsg
      (by decide) (by decide)

theorem executeLoop_preserves_unhealthy (opName : String) (fuel : Nat) :
    ∀ (pool : PoolState) (now : Nat) (tried : List Nat) (script : List Outcome)
      (invoked : List Nat) (i : Nat) (k : KeyState),
      pool.keys[i]? = some k → k.isHealthy = false →
      ∃ k', (executeLoop opName fuel pool now tried script invoked).pool.keys[i]? =
          some k' ∧ k'.isHealthy = false := by
  induction fuel with
  | zero =>
    intro pool now tried script invoked i k h hh
    exact ⟨k, h, hh⟩
  | succ fuel ih =>
    intro pool now tried script invoked i k h hh
    rw [executeLoop]
    by_cases hlt : tried.length < pool.keys.length
    · rw [if_pos hlt]
      rcases hsel : getNextAvailableKey pool now tried with _ | ⟨idx, pool1⟩
      · by_cases hw : 0 < getNextCooldownEnd pool.keys now
        · rw [if_pos hw]
          exact ih _ _ _ _ _ i k h hh
        · rw [if_neg hw]
          exact ⟨k, h, hh⟩
      · obtain ⟨k0, hk0, -, hkh, -, hp1⟩ := getNextAvailableKey_sound hsel
        subst hp1
        have hne : idx ≠ i := by
          intro heq
          subst heq
          rw [hk0] at h
          obtain rfl := Option.some.inj h
          simp [hkh] at hh
        simp only [hk0, Option.getD_some]
        rcases script with _ | ⟨o, rest⟩
        · exact ⟨k, by rw [List.getElem?_set_ne hne]; exact h, hh⟩
        · rcases o with v | e
          · exact ⟨k, by rw [List.getElem?_set_ne hne]; exact h, hh⟩
          · exact ih _ _ _ _ _ i k (by rw [List.getElem?_set_ne hne]; exact h) hh
    · rw [if_neg hlt]
      exact ⟨k, h, hh⟩

theorem execute_preserves_unhealthy (opName : String) (fuel : Nat) (pool : PoolState)
    (now : Nat) (script : List Outcome) (i : Nat) (k : KeyState)
    (h : pool.keys[i]? = some k) (hh : k.isHealthy = false) :
    ∃ k', (execute opName fuel pool now script).pool.keys[i]? = some k' ∧
      k'.isHealthy = false := by
  rw [execute]
  by_cases hguard : (!pool.initialized || pool.keys.length == 0) = true
  · rw [if_pos hguard]
    exact ⟨k, h, hh⟩
  · rw [if_neg hguard]
    exact executeLoop_preserves_unhealthy opName fuel pool now [] script [] i k h hh

/-- C8: an unhealthy record is never selected, is never made healthy again by
any sequence of `execute` calls, and regains health only through the explicit
`resetKey` / `resetAll` operations. -/
theorem unhealthy_persistent :
    (∀ (pool : PoolState) (now : Nat) (tried : List Nat) (idx : Nat) (pool1 : PoolState),
      getNextAvailableKey pool now tried = some (idx, pool1) →
      ∃ k, pool.keys[idx]? = some k ∧ k.isHealthy = true) ∧
    (∀ (pool : PoolState) (calls : List CallSpec) (i : Nat) (k : KeyState),
      pool.keys[i]? = some k → k.isHealthy = false →
      ∃ k', (runSeq pool calls).keys[i]? = some k' ∧ k'.isHealthy = false) ∧
    (∀ (pool : PoolState) (i : Nat) (k : KeyState), pool.keys[i]? = some k →
      ∃ k', (resetKey pool i).keys[i]? = some k' ∧ k'.isHealthy = true) ∧
    (∀ pool : PoolState, ∀ k ∈ (resetAll pool).keys, k.isHealthy = true) := by
  refine ⟨?_, ?_, ?_, ?_⟩
  · intro pool now tried idx pool1 hsel
    obtain ⟨k, hk, -, hkh, -, -⟩ := getNextAvailableKey_sound hsel
    exact ⟨k, hk, hkh⟩
  · intro pool calls
    induction calls generalizing pool with
    | nil => exact fun i k h hh => ⟨k, h, hh⟩
    | cons c cs ihc =>
      intro i k h hh
      rw [runSeq]
      obtain ⟨k', h', hh'⟩ :=
        execute_preserves_unhealthy c.opName c.fuel pool c.now c.script i k h hh
      exact ihc _ i k' h' hh'
  · intro pool i k h
    have hidx : i < pool.keys.length := by
      rcases List.getElem?_eq_some.mp h with ⟨hlt, -⟩
      exact hlt
    simp only [resetKey, h]
    exact ⟨_, List.getElem?_set_self hidx, rfl⟩
  · intro pool k hk
    simp only [resetAll, List.mem_map] at hk
    obtain ⟨k0, -, rfl⟩ := hk
    rfl

/-- Witness for C8: the selector on a fresh pool returns a healthy key; an
unhealthy key stays unhealthy across an `execute` call that succeeds on the
other key; `resetKey` restores it. -/
theorem unhealthy_persistent_witness :
    (∃ k, examplePool.keys[0]? = some k ∧ k.isHealthy = true) ∧
    (∃ k', (runSeq exampleUnhealthyPool [⟨"req", 2, 0, [Outcome.ok 1]⟩]).keys[0]? =
        some k' ∧ k'.isHealthy = false) ∧
    (∃ k', (resetKey exampleUnhealthyPool 0).keys[0]? = some k' ∧
      k'.isHealthy = true) := by
  refine ⟨?_, ?_, ?_⟩
  · exact unhealthy_persistent.1 examplePool 0 [] 0
      { examplePool with currentIndex := 1 % 2 } (by decide)
  · exact unhealthy_persistent.2.1 exampleUnhealthyPool [⟨"req", 2, 0, [Outcome.ok 1]⟩] 0
      { mkKeyState "alpha-credential-001" 0 with isHealthy := false } (by decide) (by decide)
  · exact unhealthy_persistent.2.2.1 exampleUnhealthyPool 0
      { mkKeyState "alpha-credential-001" 0 with isHealthy := false } (by decide)
